import Mathlib

/-!
Verification of the OpenLight animation-editor core (`src/core`): shallow
embedding of the data model (Shape/Frame/Layer/Document), the tween engine
(`Tween.ts`), and the undo/redo history manager (`History`), together with
theorems settling the spec's testable properties.

Modelling conventions:
* JavaScript numbers are modelled as `ℚ` (exact arithmetic); the one easing
  function that needs transcendental arithmetic (`elasticOut`) is modelled
  over `ℝ`.
* `generateUID()` (a random string) is modelled as drawing successive `Nat`s
  from an explicit counter that is threaded through every allocating
  operation.
* Shape objects live on an explicit heap (`Store`, a list addressed by
  position); frames hold shape *addresses*, so aliasing between frames is
  observable, exactly as in the JS object graph.
-/

/-- `Point` from `types.ts`. -/
structure Point where
  x : ℚ
  y : ℚ
deriving DecidableEq, Repr

/-- `Color` from `types.ts` (r,g,b 0-255, a 0-1). -/
structure Color where
  r : ℚ
  g : ℚ
  b : ℚ
  a : ℚ
deriving DecidableEq, Repr

/-- `Transform` from `types.ts`: 8 scalar fields. -/
structure Transform where
  x : ℚ
  y : ℚ
  scaleX : ℚ
  scaleY : ℚ
  rotation : ℚ
  skewX : ℚ
  skewY : ℚ
  alpha : ℚ
deriving DecidableEq, Repr

/-- `createDefaultTransform()` from `types.ts`. -/
def createDefaultTransform : Transform :=
  { x := 0, y := 0, scaleX := 1, scaleY := 1, rotation := 0,
    skewX := 0, skewY := 0, alpha := 1 }

/-- `StrokeStyle` from `types.ts`; `lineCap`/`lineJoin` string enums kept as strings. -/
structure StrokeStyle where
  color : Color
  width : ℚ
  lineCap : String
  lineJoin : String
deriving DecidableEq, Repr

/-- `GradientStop` from `types.ts`. -/
structure GradientStop where
  offset : ℚ
  color : Color
deriving DecidableEq, Repr

/-- `Gradient` from `types.ts`; the `'linear' | 'radial'` tag kept as a string. -/
structure Gradient where
  gtype : String
  stops : List GradientStop
  angle : Option ℚ
  radius : Option ℚ
deriving DecidableEq, Repr

/-- `FillStyle` from `types.ts`; the `'solid' | 'gradient' | 'pattern'` tag kept as a string. -/
structure FillStyle where
  ftype : String
  color : Option Color
  gradient : Option Gradient
deriving DecidableEq, Repr

/-- `PathCommand` from `types.ts`; the `'M'|'L'|'C'|'Q'|'Z'` tag kept as a string. -/
structure PathCommand where
  ctype : String
  points : List Point
deriving DecidableEq, Repr

/-- `VectorPath` from `types.ts`. -/
structure VectorPath where
  commands : List PathCommand
  closed : Bool
deriving DecidableEq, Repr

/-- `EasingFunction` descriptor from `types.ts` (the serializable record, not the function). -/
structure EasingDesc where
  etype : String
  strength : Option ℚ
  customCurve : Option (List Point)
deriving DecidableEq, Repr

/-- The `Shape` class of `Shape.ts`: id, name, paths, optional stroke/fill, transform.
UIDs are modelled as `Nat`. -/
structure Shape where
  id : Nat
  name : String
  paths : List VectorPath
  stroke : Option StrokeStyle
  fill : Option FillStyle
  transform : Transform
deriving DecidableEq, Repr

/-- `Shape.clone()` from `Shape.ts`: a fresh uid, the name with `' Copy'` appended,
and deep copies of paths, stroke, fill and transform (deep copies of immutable
values are the values themselves). The fresh uid produced by `generateUID()`
is passed in explicitly. -/
def Shape.cloneP (s : Shape) (uid : Nat) : Shape :=
  { id := uid
    name := s.name ++ " Copy"
    paths := s.paths
    stroke := s.stroke
    fill := s.fill
    transform := s.transform }

/-! ## Tween engine (`Tween.ts`) -/

namespace Easing

/-- `Easing.linear` -/
def linear (t : ℚ) : ℚ := t

/-- `Easing.easeIn` (quadratic) -/
def easeIn (t : ℚ) : ℚ := t * t

/-- `Easing.easeOut` (quadratic) -/
def easeOut (t : ℚ) : ℚ := t * (2 - t)

/-- `Easing.easeInOut` (quadratic) -/
def easeInOut (t : ℚ) : ℚ :=
  if t < 1/2 then 2 * t * t else -1 + (4 - 2 * t) * t

/-- `Easing.easeInCubic` -/
def easeInCubic (t : ℚ) : ℚ := t * t * t

/-- `Easing.easeOutCubic` -/
def easeOutCubic (t : ℚ) : ℚ :=
  let t1 := t - 1
  t1 * t1 * t1 + 1

/-- `Easing.easeInOutCubic` -/
def easeInOutCubic (t : ℚ) : ℚ :=
  if t < 1/2 then 4 * t * t * t else 1 - (-2 * t + 2)^3 / 2

/-- `Easing.elasticOut`; modelled over `ℝ` because of `2^(-10t)` and `sin`.
The source guards `t === 0` and `t === 1` explicitly. -/
noncomputable def elasticOut (t : ℝ) : ℝ :=
  let c4 : ℝ := (2 * Real.pi) / 3
  if t = 0 then 0
  else if t = 1 then 1
  else (2 : ℝ) ^ (-10 * t) * Real.sin ((t * 10 - 0.75) * c4) + 1

/-- `Easing.bounceOut` (`n1 = 7.5625`, `d1 = 2.75`). -/
def bounceOut (t : ℚ) : ℚ :=
  let n1 : ℚ := 7.5625
  let d1 : ℚ := 2.75
  if t < 1 / d1 then n1 * t * t
  else if t < 2 / d1 then n1 * (t - 1.5 / d1) * (t - 1.5 / d1) + 0.75
  else if t < 2.5 / d1 then n1 * (t - 2.25 / d1) * (t - 2.25 / d1) + 0.9375
  else n1 * (t - 2.625 / d1) * (t - 2.625 / d1) + 0.984375

end Easing

/-- `lerp` from `Tween.ts`. -/
def lerp (a b t : ℚ) : ℚ := a + (b - a) * t

/-- The first `while` loop of `lerpAngle`: `while (diff > 180) diff -= 360`. -/
def wrapHigh (d : ℚ) : ℚ :=
  if h : 180 < d then wrapHigh (d - 360) else d
termination_by (⌈d / 360⌉).toNat
decreasing_by
  have h1 : (0:ℤ) < ⌈d / 360⌉ := by
    rw [Int.ceil_pos]
    positivity
  have h2 : ⌈(d - 360) / 360⌉ = ⌈d / 360⌉ - 1 := by
    rw [show (d - 360) / 360 = d / 360 - 1 by ring, Int.ceil_sub_one]
  rw [h2]
  omega

/-- The second `while` loop of `lerpAngle`: `while (diff < -180) diff += 360`. -/
def wrapLow (d : ℚ) : ℚ :=
  if h : d < -180 then wrapLow (d + 360) else d
termination_by (⌈-d / 360⌉).toNat
decreasing_by
  have h1 : (0:ℤ) < ⌈-d / 360⌉ := by
    rw [Int.ceil_pos]
    have : (180:ℚ) < -d := by linarith
    positivity
  have h2 : ⌈-(d + 360) / 360⌉ = ⌈-d / 360⌉ - 1 := by
    rw [show -(d + 360) / 360 = -d / 360 - 1 by ring, Int.ceil_sub_one]
  rw [h2]
  omega

/-- `lerpAngle` from `Tween.ts`: normalize `b - a` by the two `while` loops,
then return `a + diff * t`. -/
def lerpAngle (a b t : ℚ) : ℚ :=
  a + wrapLow (wrapHigh (b - a)) * t

/-- `canMotionTween` from `Tween.ts`: false when either list is empty; true when
some id matches across the lists; otherwise true iff both lists are singletons. -/
def canMotionTween (startShapes endShapes : List Shape) : Bool :=
  if startShapes.length = 0 ∨ endShapes.length = 0 then false
  else if startShapes.any (fun s => endShapes.any (fun e => e.id = s.id)) then true
  else startShapes.length = 1 && endShapes.length = 1

/-! ## Frames and the shape heap (`Frame.ts`) -/

/-- The shape heap: `Store` models the JS object heap restricted to `Shape`
objects. Addresses are list positions; allocation appends. -/
abbrev Store := List Shape

/-- Placeholder payload used to make heap reads total; every read in the
development is at a valid address. -/
def defaultShape : Shape :=
  { id := 0, name := "", paths := [], stroke := none, fill := none,
    transform := createDefaultTransform }

/-- Read the shape payload at address `a`. -/
def Store.read (st : Store) (a : Nat) : Shape :=
  List.getD st a defaultShape

/-- Overwrite the payload at address `a` (models mutating a shape object in place). -/
def Store.write (st : Store) (a : Nat) (s : Shape) : Store :=
  List.set st a s

/-- The `Frame` class of `Frame.ts`. `shapes` holds heap addresses of the owned
`Shape` objects; `tweenType` is the `'none' | 'motion' | 'shape'` string. -/
structure Frame where
  id : Nat
  index : Nat
  isKeyframe : Bool
  isEmpty : Bool
  shapes : List Nat
  tweenType : String
  easing : Option EasingDesc
  duration : Nat
deriving DecidableEq, Repr

/-- The optional-field record accepted by the `Frame` constructor (`Partial<FrameData>`). -/
structure FrameInit where
  id : Option Nat := none
  index : Option Nat := none
  isKeyframe : Option Bool := none
  isEmpty : Option Bool := none
  shapes : Option (List Nat) := none
  tweenType : Option String := none
  easing : Option (Option EasingDesc) := none
  duration : Option Nat := none

/-- The `Frame` constructor: apply the defaults of `Frame.ts`, then force
`isEmpty := false` when shapes were supplied (`if (this.shapes.length > 0)`).
`uid` is the value `generateUID()` would return. -/
def Frame.new (uid : Nat) (d : FrameInit) : Frame :=
  let shapes := d.shapes.getD []
  { id := d.id.getD uid
    index := d.index.getD 1
    isKeyframe := d.isKeyframe.getD false
    isEmpty := if shapes.length > 0 then false else d.isEmpty.getD true
    shapes := shapes
    tweenType := d.tweenType.getD "none"
    easing := d.easing.getD none
    duration := d.duration.getD 1 }

/-- `Frame.addShape(shape)`: push the shape (address) and mark non-empty. -/
def Frame.addShape (f : Frame) (addr : Nat) : Frame :=
  { f with shapes := f.shapes ++ [addr], isEmpty := false }

/-- `Frame.getShape(shapeId)`: first owned shape whose id matches, as
(address, payload). -/
def Frame.getShapeP (st : Store) (f : Frame) (sid : Nat) : Option (Nat × Shape) :=
  (f.shapes.find? (fun a => (st.read a).id = sid)).map (fun a => (a, st.read a))

/-- `Frame.removeShape(shapeId)`: splice out the first owned shape with the id,
refresh `isEmpty`, report whether anything was removed. -/
def Frame.removeShapeP (st : Store) (f : Frame) (sid : Nat) : Frame × Bool :=
  match f.shapes.findIdx? (fun a => (st.read a).id = sid) with
  | some i =>
      let shapes := f.shapes.eraseIdx i
      ({ f with shapes := shapes, isEmpty := shapes.length = 0 }, true)
  | none => (f, false)

/-- `Frame.clear()`. -/
def Frame.clear (f : Frame) : Frame :=
  { f with shapes := [], isEmpty := true }

/-- `Frame.makeKeyframe()`. -/
def Frame.makeKeyframe (f : Frame) : Frame :=
  { f with isKeyframe := true }

/-- `Frame.makeBlankKeyframe()`. -/
def Frame.makeBlankKeyframe (f : Frame) : Frame :=
  { f with isKeyframe := true, shapes := [], isEmpty := true, tweenType := "none" }

/-- Clone a list of shapes through the heap (`shapes.map(s => s.clone())`):
each clone allocates a fresh object and consumes a fresh uid.
Returns (new store, next uid, addresses of the clones, in order). -/
def Store.cloneShapes (st : Store) (g : Nat) : List Nat → Store × Nat × List Nat
  | [] => (st, g, [])
  | a :: rest =>
      let st1 := st ++ [Shape.cloneP (st.read a) g]
      let r := Store.cloneShapes st1 (g + 1) rest
      (r.1, r.2.1, st.length :: r.2.2)

/-! ## List helpers modelling in-place JS array operations -/

/-- Replace the first element satisfying `p` by its image under `t`
(models mutating the object returned by `find`). -/
def replaceFirst (p : α → Bool) (t : α → α) : List α → List α
  | [] => []
  | a :: l => if p a then t a :: l else a :: replaceFirst p t l

/-- Stable insertion into a sorted list; `le a b = true` keeps `a` before `b`. -/
def insertSorted (le : α → α → Bool) (a : α) : List α → List α
  | [] => [a]
  | b :: l => if le a b then a :: b :: l else b :: insertSorted le a l

/-- Stable comparison sort, modelling JavaScript `Array.prototype.sort`
(which is required to be stable). -/
def sortBy (le : α → α → Bool) : List α → List α
  | [] => []
  | a :: l => insertSorted le a (sortBy le l)

/-! ## Layer (`Layer.ts`) -/

/-- The `Layer` class of `Layer.ts`. -/
structure Layer where
  id : Nat
  name : String
  visible : Bool
  locked : Bool
  frames : List Frame
  color : String
deriving DecidableEq, Repr

/-- `Layer.getFrame(index)`: exact lookup. -/
def Layer.getFrame (l : Layer) (index : Nat) : Option Frame :=
  l.frames.find? (fun f => f.index = index)

/-- `Layer.getKeyframeAt(index)`: keyframes at or before `index`, sorted by
descending index (`(a, b) => b.index - a.index`), first one. -/
def Layer.getKeyframeAt (l : Layer) (index : Nat) : Option Frame :=
  (sortBy (fun a b => b.index ≤ a.index)
    (l.frames.filter (fun f => f.isKeyframe && f.index ≤ index))).head?

/-- `Layer.getNextKeyframe(index)`: keyframes strictly after `index`, sorted
ascending, first one. -/
def Layer.getNextKeyframe (l : Layer) (index : Nat) : Option Frame :=
  (sortBy (fun a b => a.index ≤ b.index)
    (l.frames.filter (fun f => f.isKeyframe && index < f.index))).head?

/-- Sort the frame list by ascending index (`frames.sort((a, b) => a.index - b.index)`). -/
def sortFrames (fs : List Frame) : List Frame :=
  sortBy (fun a b => a.index ≤ b.index) fs

/-- `Layer.insertKeyframe(index)`. Existing frame: promote it to a keyframe and,
if it was empty, seed it with clones of the governing previous keyframe's
shapes. Missing frame: create one seeded from the keyframe in effect at
`index`, push and re-sort. Returns the layer, the frame the source returns,
the store and the next uid. -/
def Layer.insertKeyframe (l : Layer) (index : Nat) (st : Store) (g : Nat) :
    Layer × Frame × Store × Nat :=
  match l.getFrame index with
  | some frame =>
      let frame1 := frame.makeKeyframe
      if frame1.isEmpty then
        match l.getKeyframeAt (index - 1) with
        | some prev =>
            if prev.isEmpty then
              ({ l with frames := replaceFirst (fun f => f.index = index) (fun _ => frame1) l.frames },
               frame1, st, g)
            else
              let r := Store.cloneShapes st g prev.shapes
              let frame2 := { frame1 with shapes := r.2.2, isEmpty := false }
              ({ l with frames := replaceFirst (fun f => f.index = index) (fun _ => frame2) l.frames },
               frame2, r.1, r.2.1)
        | none =>
            ({ l with frames := replaceFirst (fun f => f.index = index) (fun _ => frame1) l.frames },
             frame1, st, g)
      else
        ({ l with frames := replaceFirst (fun f => f.index = index) (fun _ => frame1) l.frames },
         frame1, st, g)
  | none =>
      let prev := l.getKeyframeAt index
      let seeded : Store × Nat × List Nat :=
        match prev with
        | some p => if p.isEmpty then (st, g, []) else Store.cloneShapes st g p.shapes
        | none => (st, g, [])
      let isEmpty : Bool :=
        match prev with
        | some p => p.isEmpty
        | none => true
      let fr := Frame.new seeded.2.1
        { index := some index, isKeyframe := some true,
          shapes := some seeded.2.2, isEmpty := some isEmpty }
      ({ l with frames := sortFrames (l.frames ++ [fr]) }, fr, seeded.1, seeded.2.1 + 1)

/-- `Layer.insertBlankKeyframe(index)`. -/
def Layer.insertBlankKeyframe (l : Layer) (index : Nat) (g : Nat) :
    Layer × Frame × Nat :=
  match l.getFrame index with
  | some frame =>
      let frame1 := frame.makeBlankKeyframe
      ({ l with frames := replaceFirst (fun f => f.index = index) (fun _ => frame1) l.frames },
       frame1, g)
  | none =>
      let fr := Frame.new g { index := some index, isKeyframe := some true, isEmpty := some true }
      ({ l with frames := sortFrames (l.frames ++ [fr]) }, fr, g + 1)

/-- `Layer.clearKeyframe(index)`: at index 1 only clear the content (the first
keyframe is never removed); otherwise splice the frame out of the list. -/
def Layer.clearKeyframe (l : Layer) (index : Nat) : Layer :=
  match l.getFrame index with
  | none => l
  | some frame =>
      if frame.isKeyframe then
        if index = 1 then
          { l with frames := replaceFirst (fun f => f.index = index) Frame.clear l.frames }
        else
          { l with frames := l.frames.eraseP (fun f => f.index = index) }
      else l

/-- `Layer.addShapeAtFrame(index, shape)`: ensure a keyframe exists exactly at
`index` (inserting one if the keyframe in effect is absent or at a different
index), then append the shape to it. -/
def Layer.addShapeAtFrame (l : Layer) (index : Nat) (addr : Nat) (st : Store) (g : Nat) :
    Layer × Store × Nat :=
  match l.getKeyframeAt index with
  | none =>
      let r := l.insertKeyframe index st g
      ({ r.1 with frames := replaceFirst (fun f => f.index = r.2.1.index) (Frame.addShape · addr) r.1.frames },
       r.2.2.1, r.2.2.2)
  | some kf =>
      if kf.index ≠ index then
        let r := l.insertKeyframe index st g
        ({ r.1 with frames := replaceFirst (fun f => f.index = r.2.1.index) (Frame.addShape · addr) r.1.frames },
         r.2.2.1, r.2.2.2)
      else
        ({ l with frames := replaceFirst (fun f => f.index = index) (Frame.addShape · addr) l.frames },
         st, g)

/-- `Layer.getShapesAtFrame(index)`: the governing keyframe's shapes, or `[]`. -/
def Layer.getShapesAtFrame (l : Layer) (index : Nat) : List Nat :=
  match l.getKeyframeAt index with
  | some kf => kf.shapes
  | none => []

/-! ## Document (`Document.ts`), restricted to the state the claims observe:
the layer stack, the playhead and the selection set. -/

/-- The `Document` class of `Document.ts` (layer stack, `_currentFrame`,
`_selectedShapeIds`; the selection `Set` is modelled as an insertion-ordered
duplicate-free list). -/
structure Document where
  id : Nat
  name : String
  layers : List Layer
  currentFrame : Nat
  selectedShapeIds : List Nat
deriving DecidableEq, Repr

/-- `Document.getLayer(layerId)`. -/
def Document.getLayer (d : Document) (layerId : Nat) : Option Layer :=
  d.layers.find? (fun l => l.id = layerId)

/-- `Document.clearSelection()` (the `selectionChange` notification carries no state). -/
def Document.clearSelection (d : Document) : Document :=
  { d with selectedShapeIds := [] }

/-- `Document.getVisibleShapes()`: walk the layer stack from the last stored
layer (bottom) to index 0 (top), skipping invisible layers, collecting
`{ shape, layerId }` pairs — here (shape address, layer id). -/
def Document.getVisibleShapes (d : Document) : List (Nat × Nat) :=
  d.layers.reverse.foldl
    (fun acc layer =>
      if layer.visible then
        acc ++ (layer.getShapesAtFrame d.currentFrame).map (fun a => (a, layer.id))
      else acc)
    []

/-! ## History manager (`History.ts`) -/

/-- The `Command` interface: `execute()` and `undo()` as functions on a state
type `σ` (a command object's own captured fields are part of `σ` when needed,
see `RState` below). The re-entrancy flag `isExecuting` is always false
between top-level calls in the single-threaded model and is not represented. -/
structure Command (σ : Type) where
  exec : σ → σ
  undo : σ → σ

/-- The `HistoryManager` class: undo/redo stacks (most recent at the tail,
matching JS `push`/`pop`), the bound, and the document state. -/
structure HistoryManager (σ : Type) where
  undoStack : List (Command σ)
  redoStack : List (Command σ)
  maxHistory : Nat
  document : σ

/-- The `HistoryManager` constructor (`maxHistory` defaults to 100). -/
def HistoryManager.new (d : σ) : HistoryManager σ :=
  { undoStack := [], redoStack := [], maxHistory := 100, document := d }

/-- `HistoryManager.execute(command)`: run the command, push it, clear the redo
stack, and `shift()` the oldest entry when the stack exceeds `maxHistory`. -/
def HistoryManager.execute (m : HistoryManager σ) (c : Command σ) : HistoryManager σ :=
  let d := c.exec m.document
  let us := m.undoStack ++ [c]
  let us := if m.maxHistory < us.length then us.drop 1 else us
  { undoStack := us, redoStack := [], maxHistory := m.maxHistory, document := d }

/-- `HistoryManager.undo()`: pop the most recent command, run its `undo()`,
push it on the redo stack; returns the manager and the source's boolean. -/
def HistoryManager.undo (m : HistoryManager σ) : HistoryManager σ × Bool :=
  match m.undoStack.getLast? with
  | none => (m, false)
  | some c =>
      ({ m with undoStack := m.undoStack.dropLast,
                redoStack := m.redoStack ++ [c],
                document := c.undo m.document }, true)

/-- `HistoryManager.redo()`: pop from the redo stack, re-run `execute()`,
push back on the undo stack (no truncation here, matching the source). -/
def HistoryManager.redo (m : HistoryManager σ) : HistoryManager σ × Bool :=
  match m.redoStack.getLast? with
  | none => (m, false)
  | some c =>
      ({ m with redoStack := m.redoStack.dropLast,
                undoStack := m.undoStack ++ [c],
                document := c.exec m.document }, true)

/-- The `while` loop of `setMaxHistory`: shift oldest entries until the stack
fits the bound. -/
def shrinkFront (mx : Nat) (l : List α) : List α :=
  if _h : mx < l.length then shrinkFront mx (l.drop 1) else l
termination_by l.length
decreasing_by
  simp only [List.length_drop]
  omega

/-- `HistoryManager.setMaxHistory(max)`: clamp to at least 1, then drop oldest
entries while the stack is too long. -/
def HistoryManager.setMaxHistory (m : HistoryManager σ) (mx : Nat) : HistoryManager σ :=
  let mh := max 1 mx
  { m with maxHistory := mh, undoStack := shrinkFront mh m.undoStack }

/-- Execute a sequence of commands through the manager. -/
def HistoryManager.executeAll (m : HistoryManager σ) (cs : List (Command σ)) : HistoryManager σ :=
  cs.foldl HistoryManager.execute m

/-- Call `undo()` `n` times. -/
def HistoryManager.undoIter (m : HistoryManager σ) : Nat → HistoryManager σ
  | 0 => m
  | n + 1 => (m.undo).1.undoIter n

/-- Call `redo()` `n` times. -/
def HistoryManager.redoIter (m : HistoryManager σ) : Nat → HistoryManager σ
  | 0 => m
  | n + 1 => (m.redo).1.redoIter n

/-- Apply the `execute()` effects of a command list directly to a state
(the state reached after executing the list, used to phrase history claims). -/
def applyExecs (d : σ) (cs : List (Command σ)) : σ :=
  cs.foldl (fun d c => c.exec d) d

/-! ## `RemoveShapesCommand` (`History.ts`) -/

/-- The full mutable state `RemoveShapesCommand` touches: the document, the
shape heap, the uid counter, and the command object's own `removedShapes`
field (layerId, frameIndex, cloned shape payload). -/
structure RState where
  doc : Document
  store : Store
  gen : Nat
  removed : List (Nat × Nat × Shape)
deriving Repr

/-- The inner loop of `RemoveShapesCommand.execute()` over `shapeIds` for one
layer's governing keyframe: snapshot `shape.clone()` into `removedShapes`
(consuming a uid), then `keyframe.removeShape(shapeId)`. -/
def removeShapesFromKeyframe (shapeIds : List Nat) (layerId : Nat)
    (acc : Frame × Store × Nat × List (Nat × Nat × Shape)) :
    Frame × Store × Nat × List (Nat × Nat × Shape) :=
  shapeIds.foldl
    (fun acc sid =>
      let kf := acc.1
      let st := acc.2.1
      let g := acc.2.2.1
      let rem := acc.2.2.2
      match Frame.getShapeP st kf sid with
      | some sh =>
          let rem' := rem ++ [(layerId, kf.index, Shape.cloneP sh.2 g)]
          let kf' := (Frame.removeShapeP st kf sid).1
          (kf', st, g + 1, rem')
      | none => (kf, st, g, rem))
    acc

/-- `RemoveShapesCommand.execute()`: reset `removedShapes`, then for every
layer take the keyframe governing the current playhead frame, remove each
requested shape from it (snapshotting a clone first), and finally clear the
selection. -/
def removeShapesExec (shapeIds : List Nat) (s : RState) : RState :=
  let cf := s.doc.currentFrame
  let r := s.doc.layers.foldl
    (fun (acc : List Layer × Store × Nat × List (Nat × Nat × Shape)) layer =>
      match layer.getKeyframeAt cf with
      | none => (acc.1 ++ [layer], acc.2)
      | some kf =>
          let r := removeShapesFromKeyframe shapeIds layer.id (kf, acc.2)
          let layer' := { layer with
            frames := replaceFirst (fun f => f.index = kf.index) (fun _ => r.1) layer.frames }
          (acc.1 ++ [layer'], r.2))
    ([], s.store, s.gen, [])
  { doc := ({ s.doc with layers := r.1 }).clearSelection
    store := r.2.1
    gen := r.2.2.1
    removed := r.2.2.2 }

/-- `RemoveShapesCommand.undo()`: for every snapshot, find the layer and the
keyframe governing the recorded frame index, and `addShape(shape.clone())` —
cloning the snapshot again, with a fresh uid. -/
def removeShapesUndo (s : RState) : RState :=
  s.removed.foldl
    (fun s entry =>
      match s.doc.getLayer entry.1 with
      | none => s
      | some layer =>
          match layer.getKeyframeAt entry.2.1 with
          | none => s
          | some kf =>
              let addr := s.store.length
              let st' := s.store ++ [Shape.cloneP entry.2.2 s.gen]
              let kf' := kf.addShape addr
              let layer' := { layer with
                frames := replaceFirst (fun f => f.index = kf.index) (fun _ => kf') layer.frames }
              { s with
                store := st'
                gen := s.gen + 1
                doc := { s.doc with
                  layers := replaceFirst (fun l => l.id = entry.1) (fun _ => layer') s.doc.layers } })
    s

/-- `new RemoveShapesCommand(document, shapeIds)` as a `Command RState`. -/
def removeShapesCommand (shapeIds : List Nat) : Command RState :=
  { exec := removeShapesExec shapeIds, undo := removeShapesUndo }

/-! ## Serialization model (`Document.toJSON` / `Document.fromJSON`)

`toJSON()` methods exist on class *instances* but not on the plain records
produced by `toJSON`/`JSON.parse`. The `Layer` constructor stores
`data.frames` verbatim (`this.frames = data.frames`), so a document built by
`Document.fromJSON` holds *raw* frame records; calling `toJSON()` on such a
document throws (`f.toJSON is not a function`). The runtime types below keep
the instance/raw distinction, and serialization returns `Option` — `none`
models the thrown `TypeError`. -/

/-- `array.map(x => x.toJSON())` where an element's serialization can throw:
`none` (a throw) aborts the whole map. -/
def mapOpt (f : α → Option β) : List α → Option (List β)
  | [] => some []
  | a :: l =>
      match f a with
      | none => none
      | some b =>
          match mapOpt f l with
          | none => none
          | some bs => some (b :: bs)

namespace Ser

/-- `ShapeData` (`Shape.ts`): the serialized shape record. -/
structure ShapeData where
  id : Nat
  name : String
  paths : List VectorPath
  stroke : Option StrokeStyle
  fill : Option FillStyle
  transform : Transform
deriving DecidableEq, Repr

/-- `FrameData` (`Frame.ts`): the serialized frame record. -/
structure FrameData where
  id : Nat
  index : Nat
  isKeyframe : Bool
  isEmpty : Bool
  shapes : List ShapeData
  tweenType : String
  easing : Option EasingDesc
  duration : Nat
deriving DecidableEq, Repr

/-- `LayerData` (`Layer.ts`): the serialized layer record. -/
structure LayerData where
  id : Nat
  name : String
  visible : Bool
  locked : Bool
  frames : List FrameData
  color : String
deriving DecidableEq, Repr

/-- `SymbolData` (`Symbol.ts`): the serialized symbol record
(`type` field kept as a string). -/
structure SymbolData where
  id : Nat
  name : String
  stype : String
  layers : List LayerData
  frameCount : Nat
deriving DecidableEq, Repr

/-- `DocumentSettings` (`Document.ts`). -/
structure DocumentSettings where
  width : ℚ
  height : ℚ
  frameRate : ℚ
  backgroundColor : Color
deriving DecidableEq, Repr

/-- `DocumentData` (`Document.ts`): the persisted project format. -/
structure DocumentData where
  id : Nat
  name : String
  settings : DocumentSettings
  layers : List LayerData
  library : List SymbolData
  version : String
deriving DecidableEq, Repr

/-- A runtime shape slot: a `Shape` instance (has methods) or a raw record. -/
inductive ShapeRT
  | obj (s : ShapeData)
  | raw (d : ShapeData)
deriving DecidableEq, Repr

/-- `Shape.prototype.toJSON` — only callable on an instance; on a raw record
the call throws (`none`). -/
def ShapeRT.toJSON : ShapeRT → Option ShapeData
  | .obj s => some s
  | .raw _ => none

/-- A `Frame` instance: its `shapes` array may hold instances or raw records. -/
structure FrameObj where
  id : Nat
  index : Nat
  isKeyframe : Bool
  isEmpty : Bool
  shapes : List ShapeRT
  tweenType : String
  easing : Option EasingDesc
  duration : Nat
deriving DecidableEq, Repr

/-- A runtime frame slot: a `Frame` instance or a raw `FrameData` record
(the latter is what `Layer`'s constructor stores after `fromJSON`). -/
inductive FrameRT
  | obj (f : FrameObj)
  | raw (d : FrameData)
deriving DecidableEq, Repr

/-- `Frame.prototype.toJSON`: serialize each shape (`this.shapes.map(s => s.toJSON())`);
on a raw record the call throws. -/
def FrameRT.toJSON : FrameRT → Option FrameData
  | .obj f =>
      (mapOpt ShapeRT.toJSON f.shapes).map fun shapes =>
        { id := f.id, index := f.index, isKeyframe := f.isKeyframe,
          isEmpty := f.isEmpty, shapes := shapes, tweenType := f.tweenType,
          easing := f.easing, duration := f.duration }
  | .raw _ => none

/-- A `Layer` instance whose `frames` array holds runtime frame slots. -/
structure LayerObj where
  id : Nat
  name : String
  visible : Bool
  locked : Bool
  frames : List FrameRT
  color : String
deriving DecidableEq, Repr

/-- A runtime layer slot (the `Symbol` constructor stores raw `LayerData`). -/
inductive LayerRT
  | obj (l : LayerObj)
  | raw (d : LayerData)
deriving DecidableEq, Repr

/-- `Layer.prototype.toJSON`: `frames: this.frames.map(f => f.toJSON())`. -/
def LayerObj.toJSON (l : LayerObj) : Option LayerData :=
  (mapOpt FrameRT.toJSON l.frames).map fun frames =>
    { id := l.id, name := l.name, visible := l.visible, locked := l.locked,
      frames := frames, color := l.color }

/-- `toJSON` on a runtime layer slot. -/
def LayerRT.toJSON : LayerRT → Option LayerData
  | .obj l => l.toJSON
  | .raw _ => none

/-- A `Symbol` instance; its `layers` may be raw (`this.layers = data.layers`). -/
structure SymbolObj where
  id : Nat
  name : String
  stype : String
  layers : List LayerRT
  frameCount : Nat
deriving DecidableEq, Repr

/-- `Symbol.prototype.toJSON`. -/
def SymbolObj.toJSON (s : SymbolObj) : Option SymbolData :=
  (mapOpt LayerRT.toJSON s.layers).map fun layers =>
    { id := s.id, name := s.name, stype := s.stype, layers := layers,
      frameCount := s.frameCount }

/-- A `Document` instance. `layers` always holds `Layer` instances (the
`Document` constructor wraps raw records in `new Layer(...)`); `library` holds
the `Library` map's symbols in insertion order. `version` is the class-field
constant `'0.1.0'`; the constructor never reads it from `data`. -/
structure DocumentObj where
  id : Nat
  name : String
  settings : DocumentSettings
  layers : List LayerObj
  library : List SymbolObj
  version : String
deriving DecidableEq, Repr

/-- `Document.prototype.toJSON`. -/
def DocumentObj.toJSON (d : DocumentObj) : Option DocumentData :=
  (mapOpt LayerObj.toJSON d.layers).bind fun layers =>
    (mapOpt SymbolObj.toJSON d.library).map fun library =>
      { id := d.id, name := d.name, settings := d.settings,
        layers := layers, library := library, version := d.version }

/-- The `Layer` constructor on a raw record: copies the scalar fields and
stores `data.frames` verbatim (raw — no `Frame` instances are built). -/
def layerFromData (l : LayerData) : LayerObj :=
  { id := l.id, name := l.name, visible := l.visible, locked := l.locked,
    frames := l.frames.map FrameRT.raw, color := l.color }

/-- The `Symbol` constructor on a raw record: `this.layers = data.layers` (raw). -/
def symbolFromData (s : SymbolData) : SymbolObj :=
  { id := s.id, name := s.name, stype := s.stype,
    layers := s.layers.map LayerRT.raw, frameCount := s.frameCount }

/-- `Library.addSymbol` (`Map.set`): replace an existing entry with the same
id, else append. -/
def addSymbol (lib : List SymbolObj) (s : SymbolObj) : List SymbolObj :=
  if lib.any (fun t => t.id = s.id) then
    replaceFirst (fun t => t.id = s.id) (fun _ => s) lib
  else lib ++ [s]

/-- `Document.fromJSON` on parsed data: the `Document` constructor with a full
`DocumentData`. Layers are wrapped in `new Layer(...)` (raw frames inside);
symbols are wrapped in `new Symbol(...)` and added to the library;
`version` stays the class constant. -/
def Document.fromJSON (data : DocumentData) : DocumentObj :=
  { id := data.id
    name := data.name
    settings := data.settings
    layers := data.layers.map layerFromData
    library := data.library.foldl (fun lib sd => addSymbol lib (symbolFromData sd)) []
    version := "0.1.0" }

end Ser

/-! ## Sample data used by witnesses -/

/-- A minimal concrete shape with a chosen id. -/
def sampleShape (i : Nat) : Shape :=
  { id := i, name := "Shape", paths := [], stroke := none, fill := none,
    transform := createDefaultTransform }

/-! ## C4 — `lerpAngle(350, 10, 0.5)` -/

/-- Evaluation of the first normalization loop at `-340`. -/
theorem wrapHigh_m340 : wrapHigh (-340) = -340 := by
  rw [wrapHigh]
  norm_num

/-- Evaluation of the second normalization loop at `-340`. -/
theorem wrapLow_m340 : wrapLow (-340) = 20 := by
  rw [wrapLow]
  norm_num
  rw [wrapLow]
  norm_num

/-- C4 (counterexample): the claim says `lerpAngle(350, 10, 0.5)` equals `0`;
the source computes `350 + 20 * 0.5 = 360`, which is not the number `0`. -/
theorem lerpAngle_ne_zero : lerpAngle 350 10 (1/2) ≠ 0 := by
  unfold lerpAngle
  rw [show (10 : ℚ) - 350 = -340 by norm_num, wrapHigh_m340, wrapLow_m340]
  norm_num

/-- C4 (amended): `lerpAngle(350, 10, 0.5) = 360`, i.e. `0` modulo a full turn:
the interpolation normalizes the delta `10 - 350 = -340` to `+20` and goes the
short way through 0°, not to the naive midpoint 180. -/
theorem lerpAngle_shortest_path :
    lerpAngle 350 10 (1/2) = 360 ∧ lerpAngle 350 10 (1/2) ≠ 180 := by
  unfold lerpAngle
  rw [show (10 : ℚ) - 350 = -340 by norm_num, wrapHigh_m340, wrapLow_m340]
  norm_num

/-! ## C6 — easing boundary law -/

/-- C6: every supported easing function `f` (linear, quadratic in/out/in-out,
cubic in/out/in-out, elastic-out, bounce-out) satisfies `f 0 = 0` and `f 1 = 1`. -/
theorem easing_boundary :
    Easing.linear 0 = 0 ∧ Easing.linear 1 = 1 ∧
    Easing.easeIn 0 = 0 ∧ Easing.easeIn 1 = 1 ∧
    Easing.easeOut 0 = 0 ∧ Easing.easeOut 1 = 1 ∧
    Easing.easeInOut 0 = 0 ∧ Easing.easeInOut 1 = 1 ∧
    Easing.easeInCubic 0 = 0 ∧ Easing.easeInCubic 1 = 1 ∧
    Easing.easeOutCubic 0 = 0 ∧ Easing.easeOutCubic 1 = 1 ∧
    Easing.easeInOutCubic 0 = 0 ∧ Easing.easeInOutCubic 1 = 1 ∧
    Easing.elasticOut 0 = 0 ∧ Easing.elasticOut 1 = 1 ∧
    Easing.bounceOut 0 = 0 ∧ Easing.bounceOut 1 = 1 := by
  refine ⟨?_, ?_, ?_, ?_, ?_, ?_, ?_, ?_, ?_, ?_, ?_, ?_, ?_, ?_, ?_, ?_, ?_, ?_⟩ <;>
    norm_num [Easing.linear, Easing.easeIn, Easing.easeOut, Easing.easeInOut,
      Easing.easeInCubic, Easing.easeOutCubic, Easing.easeInOutCubic,
      Easing.elasticOut, Easing.bounceOut]

/-! ## C7 — `canMotionTween` -/

/-- C7: `canMotionTween` returns false when either list is empty; true whenever
some shape id occurs in both lists; and otherwise returns true exactly when
both lists contain exactly one shape. -/
theorem canMotionTween_spec (s e : List Shape) :
    (s = [] ∨ e = [] → canMotionTween s e = false) ∧
    ((∃ i, i ∈ s.map Shape.id ∧ i ∈ e.map Shape.id) → canMotionTween s e = true) ∧
    ((¬ ∃ i, i ∈ s.map Shape.id ∧ i ∈ e.map Shape.id) →
      (canMotionTween s e = true ↔ s.length = 1 ∧ e.length = 1)) := by
  refine ⟨?_, ?_, ?_⟩
  · rintro (rfl | rfl) <;> simp [canMotionTween]
  · rintro ⟨i, hs, he⟩
    simp only [List.mem_map] at hs he
    obtain ⟨a, ha, rfl⟩ := hs
    obtain ⟨b, hb, hab⟩ := he
    have hs0 : s.length ≠ 0 := by
      intro h
      rw [List.length_eq_zero] at h
      subst h
      simp at ha
    have he0 : e.length ≠ 0 := by
      intro h
      rw [List.length_eq_zero] at h
      subst h
      simp at hb
    have hany : s.any (fun x => e.any (fun y => y.id = x.id)) = true := by
      rw [List.any_eq_true]
      exact ⟨a, ha, by rw [List.any_eq_true]; exact ⟨b, hb, by simp [hab]⟩⟩
    simp [canMotionTween, hs0, he0, hany]
  · intro hne
    by_cases hs0 : s.length = 0
    · have : ¬ (s.length = 1 ∧ e.length = 1) := by omega
      simp [canMotionTween, hs0, this]
    · by_cases he0 : e.length = 0
      · have : ¬ (s.length = 1 ∧ e.length = 1) := by omega
        simp [canMotionTween, hs0, he0, this]
      · have hany : s.any (fun x => e.any (fun y => y.id = x.id)) = false := by
          rw [Bool.eq_false_iff]
          intro hx
          rw [List.any_eq_true] at hx
          obtain ⟨x, hx, hex⟩ := hx
          rw [List.any_eq_true] at hex
          obtain ⟨y, hy, hxy⟩ := hex
          simp only [decide_eq_true_eq] at hxy
          exact hne ⟨x.id, List.mem_map_of_mem Shape.id hx,
            by rw [List.mem_map]; exact ⟨y, hy, hxy⟩⟩
        simp [canMotionTween, hs0, he0, hany, Bool.and_eq_true]

/-- Witness for C7: the three clauses applied at concrete shape lists. -/
theorem canMotionTween_spec_witness :
    canMotionTween [] [sampleShape 1] = false ∧
    canMotionTween [sampleShape 1, sampleShape 2] [sampleShape 2] = true ∧
    (canMotionTween [sampleShape 1] [sampleShape 2] = true ↔
      [sampleShape 1].length = 1 ∧ [sampleShape 2].length = 1) := by
  refine ⟨(canMotionTween_spec [] [sampleShape 1]).1 (Or.inl rfl),
          (canMotionTween_spec _ _).2.1 ⟨2, by simp [sampleShape], by simp [sampleShape]⟩,
          (canMotionTween_spec _ _).2.2 ?_⟩
  rintro ⟨i, hi1, hi2⟩
  simp [sampleShape] at hi1 hi2
  omega

/-! ## C10 — `Shape.clone()` -/

/-- C10: a clone carries the source name with `' Copy'` appended (never the
source name itself), the freshly generated uid (distinct from the source's
whenever the generator is fresh), and deep copies of paths, stroke, fill and
transform structurally equal to the source's. -/
theorem shape_clone_spec (s : Shape) (uid : Nat) (h : uid ≠ s.id) :
    (s.cloneP uid).name = s.name ++ " Copy" ∧
    (s.cloneP uid).name ≠ s.name ∧
    (s.cloneP uid).id = uid ∧
    (s.cloneP uid).id ≠ s.id ∧
    (s.cloneP uid).paths = s.paths ∧
    (s.cloneP uid).stroke = s.stroke ∧
    (s.cloneP uid).fill = s.fill ∧
    (s.cloneP uid).transform = s.transform := by
  refine ⟨rfl, ?_, rfl, h, rfl, rfl, rfl, rfl⟩
  intro heq
  have hlen := congrArg String.length heq
  simp only [Shape.cloneP, String.length_append] at hlen
  have h5 : (" Copy").length = 5 := rfl
  omega

/-- Witness for C10: the clone facts at a concrete shape and uid. -/
theorem shape_clone_spec_witness :
    (7 : Nat) ≠ (sampleShape 3).id ∧
    (((sampleShape 3).cloneP 7).name = (sampleShape 3).name ++ " Copy" ∧
     ((sampleShape 3).cloneP 7).name ≠ (sampleShape 3).name ∧
     ((sampleShape 3).cloneP 7).id = 7 ∧
     ((sampleShape 3).cloneP 7).id ≠ (sampleShape 3).id ∧
     ((sampleShape 3).cloneP 7).paths = (sampleShape 3).paths ∧
     ((sampleShape 3).cloneP 7).stroke = (sampleShape 3).stroke ∧
     ((sampleShape 3).cloneP 7).fill = (sampleShape 3).fill ∧
     ((sampleShape 3).cloneP 7).transform = (sampleShape 3).transform) :=
  ⟨by decide, shape_clone_spec (sampleShape 3) 7 (by decide)⟩

/-! ## C9 — `getVisibleShapes()` paint order -/

/-- The contribution of one layer to `getVisibleShapes()`: its shapes at the
playhead frame (tagged with the layer id) when visible, nothing otherwise. -/
def layerContribution (currentFrame : Nat) (l : Layer) : List (Nat × Nat) :=
  if l.visible then (l.getShapesAtFrame currentFrame).map (fun a => (a, l.id)) else []

/-- C9: on a 3-layer document, `getVisibleShapes()` returns the bottom layer's
shapes (storage index 2) first, then index 1, then the topmost layer
(storage index 0) — back-to-front paint order. -/
theorem getVisibleShapes_three_layers (d : Document) (l0 l1 l2 : Layer)
    (h : d.layers = [l0, l1, l2]) :
    d.getVisibleShapes =
      layerContribution d.currentFrame l2 ++
      layerContribution d.currentFrame l1 ++
      layerContribution d.currentFrame l0 := by
  unfold Document.getVisibleShapes
  rw [h]
  by_cases h2 : l2.visible <;> by_cases h1 : l1.visible <;> by_cases h0 : l0.visible <;>
    simp [layerContribution, h0, h1, h2, List.append_assoc]

/-- A concrete single-keyframe frame used by witnesses. -/
def sampleKeyframe (fid : Nat) (shapes : List Nat) : Frame :=
  { id := fid, index := 1, isKeyframe := true, isEmpty := shapes.isEmpty,
    shapes := shapes, tweenType := "none", easing := none, duration := 1 }

/-- A concrete visible layer with one keyframe at frame 1. -/
def sampleLayer (i : Nat) (shapes : List Nat) : Layer :=
  { id := i, name := "Layer", visible := true, locked := false,
    frames := [sampleKeyframe (50 + i) shapes], color := "#4fc3f7" }

/-- A concrete 3-layer document (shape addresses 100/101/102 on layers 0/1/2). -/
def sampleDoc3 : Document :=
  { id := 1, name := "Doc",
    layers := [sampleLayer 0 [100], sampleLayer 1 [101], sampleLayer 2 [102]],
    currentFrame := 1, selectedShapeIds := [] }

/-- Witness for C9: the paint order on a concrete 3-layer document, with the
result evaluated: bottom layer (index 2, address 102) first, top layer
(index 0, address 100) last. -/
theorem getVisibleShapes_three_layers_witness :
    sampleDoc3.getVisibleShapes =
      layerContribution sampleDoc3.currentFrame (sampleLayer 2 [102]) ++
      layerContribution sampleDoc3.currentFrame (sampleLayer 1 [101]) ++
      layerContribution sampleDoc3.currentFrame (sampleLayer 0 [100]) ∧
    sampleDoc3.getVisibleShapes = [(102, 2), (101, 1), (100, 0)] :=
  ⟨getVisibleShapes_three_layers sampleDoc3 _ _ _ rfl, rfl⟩

/-! ## C2 — `Document.fromJSON(doc.toJSON())` round-trip -/

/-- `mapOpt` aborts as soon as one element's serialization throws. -/
theorem mapOpt_eq_none_of_mem (f : α → Option β) {x : α} {l : List α}
    (hx : x ∈ l) (hfx : f x = none) : mapOpt f l = none := by
  induction l with
  | nil => simp at hx
  | cons a l ih =>
      rcases List.mem_cons.mp hx with rfl | hmem
      · simp [mapOpt, hfx]
      · cases hfa : f a with
        | none => simp [mapOpt, hfa]
        | some b => simp [mapOpt, hfa, ih hmem]

/-- C2 (code bug): for any persisted document that contains at least one
materialized frame (every document built by the `Document`/`Layer`
constructors has frame 1), `Document.fromJSON(data)` produces a document whose
`toJSON()` throws — modelled as `none` — because the `Layer` constructor
stores the raw frame records (`this.frames = data.frames`) instead of
rebuilding `Frame` instances, and raw records have no `toJSON` method.
So the round-tripped `toJSON()` output can never be deep-equal to the
original. -/
theorem fromJSON_toJSON_throws (data : Ser.DocumentData) (l : Ser.LayerData)
    (hl : l ∈ data.layers) (hf : l.frames ≠ []) :
    (Ser.Document.fromJSON data).toJSON = none := by
  obtain ⟨fr, hfr⟩ := List.exists_mem_of_ne_nil l.frames hf
  have hlayer : Ser.LayerObj.toJSON (Ser.layerFromData l) = none := by
    have hfr' : Ser.FrameRT.raw fr ∈ (Ser.layerFromData l).frames :=
      List.mem_map_of_mem Ser.FrameRT.raw hfr
    have hframes : mapOpt Ser.FrameRT.toJSON (Ser.layerFromData l).frames = none :=
      mapOpt_eq_none_of_mem Ser.FrameRT.toJSON hfr' rfl
    unfold Ser.LayerObj.toJSON
    rw [hframes]
    rfl
  have hmem : Ser.layerFromData l ∈ (Ser.Document.fromJSON data).layers :=
    List.mem_map_of_mem Ser.layerFromData hl
  have hlayers : mapOpt Ser.LayerObj.toJSON (Ser.Document.fromJSON data).layers = none :=
    mapOpt_eq_none_of_mem Ser.LayerObj.toJSON hmem hlayer
  unfold Ser.DocumentObj.toJSON
  rw [hlayers]
  rfl

/-- A concrete serialized empty keyframe. -/
def sampleFrameData : Ser.FrameData :=
  { id := 3, index := 1, isKeyframe := true, isEmpty := true, shapes := [],
    tweenType := "none", easing := none, duration := 1 }

/-- A concrete serialized layer (the shape of a fresh `Layer`'s `toJSON()`). -/
def sampleLayerData : Ser.LayerData :=
  { id := 2, name := "Layer 1", visible := true, locked := false,
    frames := [sampleFrameData], color := "#4fc3f7" }

/-- The default document settings (`800×600`, 24 fps, white background). -/
def sampleSettings : Ser.DocumentSettings :=
  { width := 800, height := 600, frameRate := 24,
    backgroundColor := { r := 255, g := 255, b := 255, a := 1 } }

/-- The serialized form of a fresh document. -/
def sampleDocData : Ser.DocumentData :=
  { id := 1, name := "Untitled", settings := sampleSettings,
    layers := [sampleLayerData], library := [], version := "0.1.0" }

/-- A fresh in-memory document (all slots are real instances). -/
def sampleDocObj : Ser.DocumentObj :=
  { id := 1, name := "Untitled", settings := sampleSettings,
    layers := [{ id := 2, name := "Layer 1", visible := true, locked := false,
                 frames := [Ser.FrameRT.obj
                   { id := 3, index := 1, isKeyframe := true, isEmpty := true,
                     shapes := [], tweenType := "none", easing := none, duration := 1 }],
                 color := "#4fc3f7" }],
    library := [], version := "0.1.0" }

/-- Witness for C2: on a concrete fresh document the first `toJSON()` succeeds,
and `toJSON()` after `fromJSON` throws (`none`), so the round-trip output is
not deep-equal to the original. -/
theorem fromJSON_toJSON_throws_witness :
    sampleDocObj.toJSON = some sampleDocData ∧
    (Ser.Document.fromJSON sampleDocData).toJSON = none ∧
    (Ser.Document.fromJSON sampleDocData).toJSON ≠ sampleDocObj.toJSON :=
  ⟨rfl,
   fromJSON_toJSON_throws sampleDocData sampleLayerData
     (by simp [sampleDocData]) (by simp [sampleLayerData]),
   by
    rw [fromJSON_toJSON_throws sampleDocData sampleLayerData
      (by simp [sampleDocData]) (by simp [sampleLayerData])]
    simp [show sampleDocObj.toJSON = some sampleDocData from rfl]⟩

/-! ## C1 — undo/redo law through `RemoveShapesCommand` -/

/-- The shape the C1 scenario deletes. -/
def rShape : Shape :=
  { id := 0, name := "Rect", paths := [], stroke := none, fill := none,
    transform := createDefaultTransform }

/-- A one-layer document whose frame-1 keyframe owns the shape at address 0. -/
def rDoc : Document :=
  { id := 1, name := "Doc",
    layers := [{ id := 10, name := "Layer 1", visible := true, locked := false,
                 frames := [{ id := 20, index := 1, isKeyframe := true, isEmpty := false,
                              shapes := [0], tweenType := "none", easing := none,
                              duration := 1 }],
                 color := "#4fc3f7" }],
    currentFrame := 1, selectedShapeIds := [0] }

/-- Initial full state: document, heap with the one shape, uid counter 100. -/
def rState0 : RState :=
  { doc := rDoc, store := [rShape], gen := 100, removed := [] }

/-- State A: after executing `RemoveShapesCommand([0])` via the manager. -/
def rA : HistoryManager RState :=
  (HistoryManager.new rState0).execute (removeShapesCommand [0])

/-- State B: after `undo()`. -/
def rB : HistoryManager RState := (rA.undo).1

/-- State C: after `redo()`. -/
def rC : HistoryManager RState := (rB.redo).1

/-- Observer: the names of the shapes the first layer shows at the playhead. -/
def firstLayerShapeNames (s : RState) : List String :=
  match s.doc.layers with
  | [] => []
  | l :: _ => (l.getShapesAtFrame s.doc.currentFrame).map (fun a => (s.store.read a).name)

/-- C1 (code bug): execute `RemoveShapesCommand([0])`, `undo()`, `redo()`.
After the execution the frame shows no shapes; after undo + redo it still
shows one shape (named `"Rect Copy Copy"`): `undo()` restored a *clone* with a
fresh id and `' Copy'`-suffixed name, so `redo()`'s `execute()` cannot find the
original id `0` and removes nothing. The state after N undos + N redos is not
deep-equal to the state after the original N executions. -/
theorem removeShapes_undo_redo_divergence :
    firstLayerShapeNames rA.document = [] ∧
    firstLayerShapeNames rC.document = ["Rect Copy Copy"] ∧
    firstLayerShapeNames rC.document ≠ firstLayerShapeNames rA.document := by
  have h1 : firstLayerShapeNames rA.document = [] := rfl
  have h2 : firstLayerShapeNames rC.document = ["Rect Copy Copy"] := rfl
  exact ⟨h1, h2, by rw [h1, h2]; simp⟩

/-! ## C3 — `insertKeyframe` content carry-forward -/

/-- Reads below the original length are unaffected by appended allocations. -/
theorem Store.read_append (st : Store) (m : List Shape) (a : Nat) (h : a < st.length) :
    Store.read (st ++ m) a = st.read a :=
  List.getD_append st m defaultShape a h

/-- Reading back a block appended at the end of the heap returns the block. -/
theorem Store.read_appended_block (m : List Shape) : ∀ st : Store,
    (List.range' st.length m.length).map (fun a => Store.read (st ++ m) a) = m := by
  induction m with
  | nil => intro st; simp
  | cons b m ih =>
      intro st
      simp only [List.length_cons]
      rw [List.range'_succ, List.map_cons]
      have hhead : Store.read (st ++ b :: m) st.length = b := by
        unfold Store.read
        rw [List.getD_append_right st (b :: m) defaultShape st.length (Nat.le_refl _)]
        simp
      rw [hhead]
      have htail := ih (st ++ [b])
      simp only [List.length_append, List.length_singleton] at htail
      rw [List.append_cons st b m]
      exact congrArg (b :: ·) htail

/-- The clones `shapes.map(s => s.clone())` allocates, as payload values:
position `i` is a clone of the `i`-th source shape under uid `g + i`. -/
def cloneBlock (st : Store) (g : Nat) (addrs : List Nat) : List Shape :=
  (addrs.zip (List.range' g addrs.length)).map (fun p => Shape.cloneP (st.read p.1) p.2)

/-- Full description of `Store.cloneShapes` on valid addresses: it appends
`cloneBlock`, advances the uid counter by the number of clones, and returns
the freshly allocated address range. -/
theorem Store.cloneShapes_eq (addrs : List Nat) : ∀ (st : Store) (g : Nat),
    (∀ a ∈ addrs, a < st.length) →
    Store.cloneShapes st g addrs =
      (st ++ cloneBlock st g addrs, g + addrs.length, List.range' st.length addrs.length) := by
  induction addrs with
  | nil => intro st g _; simp [Store.cloneShapes, cloneBlock]
  | cons a rest ih =>
      intro st g h
      have ha : a < st.length := h a (List.mem_cons_self a rest)
      set st1 := st ++ [Shape.cloneP (st.read a) g] with hst1
      have hrest : ∀ x ∈ rest, x < st1.length := by
        intro x hx
        have := h x (List.mem_cons_of_mem a hx)
        simp only [hst1, List.length_append, List.length_singleton]
        omega
      have hblock : cloneBlock st1 (g + 1) rest =
          (rest.zip (List.range' (g + 1) rest.length)).map
            (fun p => Shape.cloneP (st.read p.1) p.2) := by
        unfold cloneBlock
        apply List.map_congr_left
        intro p hp
        have hp1 := (List.of_mem_zip hp).1
        rw [hst1, Store.read_append st _ p.1 (h p.1 (List.mem_cons_of_mem a hp1))]
      have hlen1 : st1.length = st.length + 1 := by
        simp [hst1]
      simp only [Store.cloneShapes]
      rw [ih st1 (g + 1) hrest, hblock, hlen1]
      unfold cloneBlock
      simp only [List.length_cons, List.range'_succ, List.zip_cons_cons, List.map_cons,
        Prod.mk.injEq]
      refine ⟨?_, by omega, trivial⟩
      rw [List.append_cons st (Shape.cloneP (st.read a) g)]

/-- The keyframe that `insertKeyframe(10)` creates on a layer whose only frame
is a non-empty keyframe at index 1: fresh id, index 10, carrying the freshly
cloned shape addresses. -/
def carriedFrame (st : Store) (g : Nat) (f1 : Frame) : Frame :=
  Frame.new (g + f1.shapes.length)
    { index := some 10, isKeyframe := some true,
      shapes := some (List.range' st.length f1.shapes.length),
      isEmpty := some f1.isEmpty }

/-- Computation of `insertKeyframe(10)` on a single-keyframe layer: a new frame
is created, seeded with clones of frame 1's shapes, and sorted after frame 1. -/
theorem insertKeyframe_fresh_eq (l : Layer) (f1 : Frame) (st : Store) (g : Nat)
    (hframes : l.frames = [f1]) (hidx : f1.index = 1) (hkey : f1.isKeyframe = true)
    (hnonempty : f1.isEmpty = false) (haddr : ∀ a ∈ f1.shapes, a < st.length) :
    l.insertKeyframe 10 st g =
      ({ l with frames := [f1, carriedFrame st g f1] },
       carriedFrame st g f1,
       st ++ cloneBlock st g f1.shapes,
       g + f1.shapes.length + 1) := by
  have hget : l.getFrame 10 = none := by
    simp [Layer.getFrame, hframes, List.find?_cons, hidx]
  have hprev : l.getKeyframeAt 10 = some f1 := by
    simp [Layer.getKeyframeAt, hframes, List.filter, hidx, hkey, sortBy, insertSorted]
  simp only [Layer.insertKeyframe, hget, hprev, hnonempty]
  rw [Store.cloneShapes_eq f1.shapes st g haddr]
  simp only [carriedFrame, Frame.new, hframes, sortFrames, sortBy, insertSorted,
    hidx, hnonempty, Option.getD_some, ite_self]
  norm_num

/-- A valid-address read returns an element of the heap. -/
theorem Store.read_mem (st : Store) (a : Nat) (h : a < st.length) : st.read a ∈ st := by
  unfold Store.read
  rw [List.getD_eq_getElem st defaultShape h]
  exact List.getElem_mem h

/-- Writing one object never changes what is read at a different address. -/
theorem Store.read_write_ne (st : Store) (i j : Nat) (x : Shape) (h : i ≠ j) :
    (st.write i x).read j = st.read j := by
  unfold Store.read Store.write
  simp [List.getD_eq_getElem?_getD, List.getElem?_set_ne h]

/-- Mapping a function of the first components over `zip addrs (range' g |addrs|)`
is mapping over `addrs`. -/
theorem zip_range'_map_fst (addrs : List Nat) (g : Nat) (f : Nat → α) :
    (addrs.zip (List.range' g addrs.length)).map (fun p => f p.1) = addrs.map f := by
  rw [show (fun p : Nat × Nat => f p.1) = f ∘ Prod.fst from rfl, ← List.map_map,
    List.map_fst_zip]
  simp

/-- C3 (amended): on a layer whose only frame is the non-empty keyframe at
frame 1 with shapes `S`, `insertKeyframe(10)` followed by `getShapesAtFrame(10)`
yields one shape per shape of `S` whose paths, stroke, fill and transform are
structurally equal to the original's, whose id is freshly generated (distinct
from every id in `S`), and whose *name* is the original name with `' Copy'`
appended (so not equal to the original name); frame 1 itself is untouched, and
the new shapes are fresh heap objects, disjoint from frame 1's: mutating a
shape on frame 10 does not affect the corresponding shape on frame 1. -/
theorem insertKeyframe_carry_forward
    (l l' : Layer) (fr : Frame) (st st' : Store) (g g' : Nat) (f1 : Frame)
    (hframes : l.frames = [f1]) (hidx : f1.index = 1) (hkey : f1.isKeyframe = true)
    (hnonempty : f1.isEmpty = false)
    (haddr : ∀ a ∈ f1.shapes, a < st.length)
    (hids : ∀ s ∈ st, s.id < g)
    (hrun : l.insertKeyframe 10 st g = (l', fr, st', g')) :
    ((l'.getShapesAtFrame 10).map st'.read).map Shape.name
        = (f1.shapes.map st.read).map (fun s => s.name ++ " Copy") ∧
    (∀ s ∈ f1.shapes.map st.read, s.name ++ " Copy" ≠ s.name) ∧
    ((l'.getShapesAtFrame 10).map st'.read).map Shape.paths
        = (f1.shapes.map st.read).map Shape.paths ∧
    ((l'.getShapesAtFrame 10).map st'.read).map Shape.stroke
        = (f1.shapes.map st.read).map Shape.stroke ∧
    ((l'.getShapesAtFrame 10).map st'.read).map Shape.fill
        = (f1.shapes.map st.read).map Shape.fill ∧
    ((l'.getShapesAtFrame 10).map st'.read).map Shape.transform
        = (f1.shapes.map st.read).map Shape.transform ∧
    (∀ s' ∈ (l'.getShapesAtFrame 10).map st'.read, ∀ s ∈ f1.shapes.map st.read,
        s'.id ≠ s.id) ∧
    l'.getShapesAtFrame 1 = f1.shapes ∧
    (∀ a' ∈ l'.getShapesAtFrame 10, ∀ a ∈ f1.shapes,
        a' ≠ a ∧ ∀ snew, Store.read (st'.write a' snew) a = st.read a) := by
  have heq := hrun.symm.trans (insertKeyframe_fresh_eq l f1 st g hframes hidx hkey hnonempty haddr)
  simp only [Prod.mk.injEq] at heq
  obtain ⟨hl', -, hst', -⟩ := heq
  have h10 : l'.getShapesAtFrame 10 = List.range' st.length f1.shapes.length := by
    rw [hl']
    simp [Layer.getShapesAtFrame, Layer.getKeyframeAt, List.filter, hidx, hkey,
      sortBy, insertSorted, carriedFrame, Frame.new]
  have hf1get : l'.getShapesAtFrame 1 = f1.shapes := by
    rw [hl']
    simp [Layer.getShapesAtFrame, Layer.getKeyframeAt, List.filter, hidx, hkey,
      sortBy, insertSorted, carriedFrame, Frame.new]
  have hblocklen : (cloneBlock st g f1.shapes).length = f1.shapes.length := by
    simp [cloneBlock]
  have hread : (l'.getShapesAtFrame 10).map st'.read = cloneBlock st g f1.shapes := by
    rw [h10, hst']
    have := Store.read_appended_block (cloneBlock st g f1.shapes) st
    rw [hblocklen] at this
    exact this
  refine ⟨?_, ?_, ?_, ?_, ?_, ?_, ?_, hf1get, ?_⟩
  · rw [hread]
    simp only [cloneBlock, List.map_map, Function.comp_def, Shape.cloneP]
    rw [zip_range'_map_fst f1.shapes g (fun a => (st.read a).name ++ " Copy")]
  · intro s _ hcontr
    have hlen := congrArg String.length hcontr
    simp only [String.length_append] at hlen
    have h5 : (" Copy").length = 5 := rfl
    omega
  · rw [hread]
    simp only [cloneBlock, List.map_map, Function.comp_def, Shape.cloneP]
    rw [zip_range'_map_fst f1.shapes g (fun a => (st.read a).paths)]
  · rw [hread]
    simp only [cloneBlock, List.map_map, Function.comp_def, Shape.cloneP]
    rw [zip_range'_map_fst f1.shapes g (fun a => (st.read a).stroke)]
  · rw [hread]
    simp only [cloneBlock, List.map_map, Function.comp_def, Shape.cloneP]
    rw [zip_range'_map_fst f1.shapes g (fun a => (st.read a).fill)]
  · rw [hread]
    simp only [cloneBlock, List.map_map, Function.comp_def, Shape.cloneP]
    rw [zip_range'_map_fst f1.shapes g (fun a => (st.read a).transform)]
  · intro s' hs' s hs
    rw [hread] at hs'
    simp only [cloneBlock, List.mem_map] at hs'
    obtain ⟨p, hp, rfl⟩ := hs'
    simp only [List.mem_map] at hs
    obtain ⟨a, ha, rfl⟩ := hs
    have hp2 := (List.of_mem_zip hp).2
    rw [List.mem_range'_1] at hp2
    have hlt : (st.read a).id < g := hids _ (Store.read_mem st a (haddr a ha))
    simp only [Shape.cloneP]
    omega
  · intro a' ha' a ha
    rw [h10, List.mem_range'_1] at ha'
    have haS : a < st.length := haddr a ha
    have hne : a' ≠ a := by omega
    refine ⟨hne, fun snew => ?_⟩
    rw [Store.read_write_ne _ _ _ _ hne, hst']
    exact Store.read_append st _ a haS

/-- Concrete C3 scenario: one layer, keyframe at 1 owning address 0. -/
def c3Layer : Layer := sampleLayer 0 [0]

/-- Concrete heap for the C3 scenario: one shape named `"Shape"` (id 5). -/
def c3Store : Store := [sampleShape 5]

/-- The C3 run: `insertKeyframe(10)` with uid counter 100. -/
def c3Run : Layer × Frame × Store × Nat := c3Layer.insertKeyframe 10 c3Store 100

/-- C3 (counterexample to the claim as stated): the carried-forward shape at
frame 10 is *not* structurally equal to the original up to ids — its name is
`"Shape Copy"`, not the original `"Shape"`, because the carry-forward uses
`Shape.clone()` which appends `' Copy'`. -/
theorem insertKeyframe_renames_counterexample :
    ((c3Run.1.getShapesAtFrame 10).map c3Run.2.2.1.read).map Shape.name = ["Shape Copy"] ∧
    (((c3Layer.frames.headD (sampleKeyframe 50 [0])).shapes.map c3Store.read).map Shape.name
      = ["Shape"]) ∧
    ((c3Run.1.getShapesAtFrame 10).map c3Run.2.2.1.read).map Shape.name
      ≠ ((c3Layer.frames.headD (sampleKeyframe 50 [0])).shapes.map c3Store.read).map Shape.name := by
  have h1 : ((c3Run.1.getShapesAtFrame 10).map c3Run.2.2.1.read).map Shape.name
      = ["Shape Copy"] := rfl
  have h2 : (((c3Layer.frames.headD (sampleKeyframe 50 [0])).shapes.map c3Store.read).map
      Shape.name) = ["Shape"] := rfl
  exact ⟨h1, h2, by rw [h1, h2]; simp⟩

/-- Witness for C3's amended theorem: the hypotheses and conclusion at the
concrete scenario. -/
theorem insertKeyframe_carry_forward_witness :
    (∀ a ∈ (sampleKeyframe 50 [0]).shapes, a < c3Store.length) ∧
    (∀ s ∈ (c3Store : List Shape), s.id < 100) ∧
    (((c3Run.1.getShapesAtFrame 10).map c3Run.2.2.1.read).map Shape.name
        = ((sampleKeyframe 50 [0]).shapes.map c3Store.read).map (fun s => s.name ++ " Copy") ∧
     (∀ s ∈ (sampleKeyframe 50 [0]).shapes.map c3Store.read, s.name ++ " Copy" ≠ s.name) ∧
     ((c3Run.1.getShapesAtFrame 10).map c3Run.2.2.1.read).map Shape.paths
        = ((sampleKeyframe 50 [0]).shapes.map c3Store.read).map Shape.paths ∧
     ((c3Run.1.getShapesAtFrame 10).map c3Run.2.2.1.read).map Shape.stroke
        = ((sampleKeyframe 50 [0]).shapes.map c3Store.read).map Shape.stroke ∧
     ((c3Run.1.getShapesAtFrame 10).map c3Run.2.2.1.read).map Shape.fill
        = ((sampleKeyframe 50 [0]).shapes.map c3Store.read).map Shape.fill ∧
     ((c3Run.1.getShapesAtFrame 10).map c3Run.2.2.1.read).map Shape.transform
        = ((sampleKeyframe 50 [0]).shapes.map c3Store.read).map Shape.transform ∧
     (∀ s' ∈ (c3Run.1.getShapesAtFrame 10).map c3Run.2.2.1.read,
        ∀ s ∈ (sampleKeyframe 50 [0]).shapes.map c3Store.read, s'.id ≠ s.id) ∧
     c3Run.1.getShapesAtFrame 1 = (sampleKeyframe 50 [0]).shapes ∧
     (∀ a' ∈ c3Run.1.getShapesAtFrame 10, ∀ a ∈ (sampleKeyframe 50 [0]).shapes,
        a' ≠ a ∧ ∀ snew, Store.read (c3Run.2.2.1.write a' snew) a = c3Store.read a)) :=
  ⟨by decide, by decide,
   insertKeyframe_carry_forward c3Layer c3Run.1 c3Run.2.1 c3Store c3Run.2.2.1 100 c3Run.2.2.2
     (sampleKeyframe 50 [0]) rfl rfl rfl rfl (by decide) (by decide) rfl⟩

/-! ## C5 — the frame-1 keyframe invariant -/

/-- `find?` after replacing the first `p`-match, when the replacement still
satisfies `p`: the found element is the image of the originally found one. -/
theorem find?_replaceFirst_self (p : α → Bool) (t : α → α) (l : List α)
    (hp : ∀ a, p a = true → p (t a) = true) :
    (replaceFirst p t l).find? p = (l.find? p).map t := by
  induction l with
  | nil => rfl
  | cons a l ih =>
      by_cases ha : p a = true
      · rw [replaceFirst, if_pos ha, List.find?_cons_of_pos _ (hp a ha),
          List.find?_cons_of_pos _ ha]
        rfl
      · rw [replaceFirst, if_neg ha, List.find?_cons_of_neg _ (by simpa using ha),
          List.find?_cons_of_neg _ (by simpa using ha), ih]

/-- `find?` for `q` is unchanged by replacing the first `p`-match when
`p`-elements (and their images) never satisfy `q`. -/
theorem find?_replaceFirst_other (p q : α → Bool) (t : α → α) (l : List α)
    (hpq : ∀ a, p a = true → q a = false)
    (hqt : ∀ a, p a = true → q (t a) = false) :
    (replaceFirst p t l).find? q = l.find? q := by
  induction l with
  | nil => rfl
  | cons a l ih =>
      by_cases ha : p a = true
      · have h1 : ¬ q (t a) = true := by simp [hqt a ha]
        have h2 : ¬ q a = true := by simp [hpq a ha]
        rw [replaceFirst, if_pos ha, List.find?_cons_of_neg _ h1,
          List.find?_cons_of_neg _ h2]
      · rw [replaceFirst, if_neg ha]
        by_cases hqa : q a = true
        · rw [List.find?_cons_of_pos _ hqa, List.find?_cons_of_pos _ hqa]
        · rw [List.find?_cons_of_neg _ (by simpa using hqa),
            List.find?_cons_of_neg _ (by simpa using hqa), ih]

/-- `find?` for `q` is unchanged by erasing the first `p`-match when `p` and
`q` are disjoint. -/
theorem find?_eraseP_other (p q : α → Bool) (l : List α)
    (hpq : ∀ a, p a = true → q a = false) :
    (l.eraseP p).find? q = l.find? q := by
  induction l with
  | nil => rfl
  | cons a l ih =>
      by_cases ha : p a = true
      · have h2 : ¬ q a = true := by simp [hpq a ha]
        rw [List.eraseP_cons, ha, cond_true, List.find?_cons_of_neg _ h2]
      · rw [List.eraseP_cons, (by simpa using ha : p a = false), cond_false]
        by_cases hqa : q a = true
        · rw [List.find?_cons_of_pos _ hqa, List.find?_cons_of_pos _ hqa]
        · rw [List.find?_cons_of_neg _ (by simpa using hqa),
            List.find?_cons_of_neg _ (by simpa using hqa), ih]

/-- `find?` is the head of `filter`. -/
theorem find?_eq_head?_filter (p : α → Bool) (l : List α) :
    l.find? p = (l.filter p).head? := by
  induction l with
  | nil => rfl
  | cons a l ih =>
      by_cases ha : p a = true
      · rw [List.find?_cons_of_pos _ ha, List.filter_cons, if_pos ha, List.head?_cons]
      · rw [List.find?_cons_of_neg _ (by simpa using ha), List.filter_cons, if_neg ha, ih]

/-- Stability of `insertSorted` seen through `filter`, for a key class `q`
inside which the comparison always accepts. -/
theorem filter_insertSorted (le : α → α → Bool) (q : α → Bool) (a : α)
    (h : ∀ x y, q x = true → q y = true → le x y = true) :
    ∀ l : List α, (insertSorted le a l).filter q = (a :: l).filter q := by
  intro l
  induction l with
  | nil => rfl
  | cons b l ih =>
      by_cases hle : le a b = true
      · rw [insertSorted, if_pos hle]
      · rw [insertSorted, if_neg hle]
        by_cases hqb : q b = true
        · by_cases hqa : q a = true
          · exact absurd (h a b hqa hqb) hle
          · simp [List.filter_cons, hqa, hqb, ih]
        · simp [List.filter_cons, hqb, ih]

/-- Stability of the sort seen through `filter`. -/
theorem filter_sortBy (le : α → α → Bool) (q : α → Bool)
    (h : ∀ x y, q x = true → q y = true → le x y = true) :
    ∀ l : List α, (sortBy le l).filter q = l.filter q := by
  intro l
  induction l with
  | nil => rfl
  | cons a l ih =>
      rw [sortBy, filter_insertSorted le q a h, List.filter_cons, List.filter_cons, ih]

/-- "Frame 1 exists and is a keyframe" for a layer. -/
def Frame1Inv (l : Layer) : Prop :=
  ∃ f, l.getFrame 1 = some f ∧ f.isKeyframe = true

/-- The frame-1 invariant survives replacing the first frame at index `j` by
an image that keeps the index and keeps keyframes keyframes. -/
theorem inv_replaceFirst (fs : List Frame) (j : Nat) (t : Frame → Frame) (f1 : Frame)
    (hfind : fs.find? (fun f => f.index = 1) = some f1) (hkey : f1.isKeyframe = true)
    (hidx : ∀ f, f.index = j → (t f).index = f.index)
    (hkeep : ∀ f, f.index = j → f.isKeyframe = true → (t f).isKeyframe = true) :
    ∃ f', (replaceFirst (fun f => f.index = j) t fs).find? (fun f => f.index = 1) = some f'
      ∧ f'.isKeyframe = true := by
  by_cases hj : j = 1
  · subst hj
    have hp : ∀ f : Frame, (decide (f.index = 1)) = true → (decide ((t f).index = 1)) = true := by
      intro f hf
      simp only [decide_eq_true_eq] at hf ⊢
      rw [hidx f hf, hf]
    have hf1idx : f1.index = 1 := by
      simpa using List.find?_some hfind
    refine ⟨t f1, ?_, hkeep f1 hf1idx hkey⟩
    rw [find?_replaceFirst_self _ t fs hp, hfind]
    rfl
  · refine ⟨f1, ?_, hkey⟩
    rw [find?_replaceFirst_other (fun f => f.index = j) (fun f => f.index = 1) t fs ?_ ?_]
    · exact hfind
    · intro a hpa
      simp only [decide_eq_true_eq] at hpa
      simp only [decide_eq_false_iff_not, hpa]
      exact fun hc => hj (hc ▸ rfl)
    · intro a hpa
      simp only [decide_eq_true_eq] at hpa
      have := hidx a hpa
      simp only [decide_eq_false_iff_not, this, hpa]
      exact fun hc => hj (hc ▸ rfl)

/-- Pushing a frame with index `≠ 1` and re-sorting does not change which
frame `getFrame(1)` finds (the sort is stable). -/
theorem find?_sortFrames_append (fs : List Frame) (fr : Frame) (hfr : fr.index ≠ 1) :
    (sortFrames (fs ++ [fr])).find? (fun f => f.index = 1)
      = fs.find? (fun f => f.index = 1) := by
  have hq : ∀ x y : Frame, decide (x.index = 1) = true → decide (y.index = 1) = true →
      decide (x.index ≤ y.index) = true := by
    intro x y hx hy
    simp only [decide_eq_true_eq] at hx hy ⊢
    omega
  rw [find?_eq_head?_filter, sortFrames, filter_sortBy _ _ hq, List.filter_append]
  have : List.filter (fun f => decide (f.index = 1)) [fr] = [] := by
    simp [List.filter_cons, hfr]
  rw [this, List.append_nil, ← find?_eq_head?_filter]

/-- `insertKeyframe` preserves the frame-1 invariant. -/
theorem inv_insertKeyframe (l : Layer) (idx : Nat) (st : Store) (g : Nat)
    (h : Frame1Inv l) : Frame1Inv (l.insertKeyframe idx st g).1 := by
  obtain ⟨f1, hfind, hkey⟩ := h
  unfold Layer.getFrame at hfind
  unfold Frame1Inv Layer.insertKeyframe
  cases hg : l.getFrame idx with
  | none =>
      have hidx1 : idx ≠ 1 := by
        intro hi
        subst hi
        unfold Layer.getFrame at hg
        rw [hg] at hfind
        exact Option.noConfusion hfind
      refine ⟨f1, ?_, hkey⟩
      simp only [Layer.getFrame]
      rw [find?_sortFrames_append _ _ (by simp [Frame.new, hidx1])]
      exact hfind
  | some frame =>
      have hfidx : frame.index = idx := by
        unfold Layer.getFrame at hg
        simpa using List.find?_some hg
      simp only [Layer.getFrame]
      split
      · split
        · split
          · exact inv_replaceFirst l.frames idx _ f1 hfind hkey
              (fun f hf => by simp [Frame.makeKeyframe, hfidx, hf])
              (fun f _ _ => by simp [Frame.makeKeyframe])
          · exact inv_replaceFirst l.frames idx _ f1 hfind hkey
              (fun f hf => by simp [Frame.makeKeyframe, hfidx, hf])
              (fun f _ _ => by simp [Frame.makeKeyframe])
        · exact inv_replaceFirst l.frames idx _ f1 hfind hkey
            (fun f hf => by simp [Frame.makeKeyframe, hfidx, hf])
            (fun f _ _ => by simp [Frame.makeKeyframe])
      · exact inv_replaceFirst l.frames idx _ f1 hfind hkey
          (fun f hf => by simp [Frame.makeKeyframe, hfidx, hf])
          (fun f _ _ => by simp [Frame.makeKeyframe])

/-- `insertBlankKeyframe` preserves the frame-1 invariant. -/
theorem inv_insertBlankKeyframe (l : Layer) (idx : Nat) (g : Nat)
    (h : Frame1Inv l) : Frame1Inv (l.insertBlankKeyframe idx g).1 := by
  obtain ⟨f1, hfind, hkey⟩ := h
  unfold Layer.getFrame at hfind
  unfold Frame1Inv Layer.insertBlankKeyframe
  cases hg : l.getFrame idx with
  | none =>
      have hidx1 : idx ≠ 1 := by
        intro hi
        subst hi
        unfold Layer.getFrame at hg
        rw [hg] at hfind
        exact Option.noConfusion hfind
      refine ⟨f1, ?_, hkey⟩
      simp only [Layer.getFrame]
      rw [find?_sortFrames_append _ _ (by simp [Frame.new, hidx1])]
      exact hfind
  | some frame =>
      have hfidx : frame.index = idx := by
        unfold Layer.getFrame at hg
        simpa using List.find?_some hg
      simp only [Layer.getFrame]
      exact inv_replaceFirst l.frames idx _ f1 hfind hkey
        (fun f hf => by simp [Frame.makeBlankKeyframe, hfidx, hf])
        (fun f _ _ => by simp [Frame.makeBlankKeyframe])

/-- `clearKeyframe` preserves the frame-1 invariant. -/
theorem inv_clearKeyframe (l : Layer) (idx : Nat)
    (h : Frame1Inv l) : Frame1Inv (l.clearKeyframe idx) := by
  obtain ⟨f1, hfind, hkey⟩ := h
  unfold Layer.getFrame at hfind
  unfold Frame1Inv Layer.clearKeyframe
  cases hg : l.getFrame idx with
  | none => exact ⟨f1, hfind, hkey⟩
  | some frame =>
      by_cases hfk : frame.isKeyframe = true
      · simp only [hfk, if_true]
        by_cases hi : idx = 1
        · subst hi
          simp only [if_pos rfl, Layer.getFrame]
          exact inv_replaceFirst l.frames 1 Frame.clear f1 hfind hkey
            (fun f _ => rfl) (fun f _ hk => hk)
        · simp only [hi, if_false, Layer.getFrame]
          refine ⟨f1, ?_, hkey⟩
          rw [find?_eraseP_other (fun f => f.index = idx) (fun f => f.index = 1) l.frames ?_]
          · exact hfind
          · intro a hpa
            simp only [decide_eq_true_eq] at hpa
            simp only [decide_eq_false_iff_not, hpa]
            exact fun hc => hi (hc ▸ rfl)
      · simp only [hfk, if_false]
        exact ⟨f1, hfind, hkey⟩

/-- `addShapeAtFrame` preserves the frame-1 invariant. -/
theorem inv_addShapeAtFrame (l : Layer) (idx addr : Nat) (st : Store) (g : Nat)
    (h : Frame1Inv l) : Frame1Inv (l.addShapeAtFrame idx addr st g).1 := by
  have hins := inv_insertKeyframe l idx st g h
  obtain ⟨f1, hfind, hkey⟩ := h
  unfold Layer.getFrame at hfind
  obtain ⟨f', hfind', hkey'⟩ := hins
  unfold Layer.getFrame at hfind'
  unfold Frame1Inv Layer.addShapeAtFrame
  cases hk : l.getKeyframeAt idx with
  | none =>
      simp only [Layer.getFrame]
      exact inv_replaceFirst (l.insertKeyframe idx st g).1.frames _ _ f' hfind' hkey'
        (fun f _ => rfl) (fun f _ hkf => by simp [Frame.addShape, hkf])
  | some kf =>
      dsimp only
      by_cases hki : kf.index ≠ idx
      · rw [if_pos hki]
        simp only [Layer.getFrame]
        exact inv_replaceFirst (l.insertKeyframe idx st g).1.frames _ _ f' hfind' hkey'
          (fun f _ => rfl) (fun f _ hkf => by simp [Frame.addShape, hkf])
      · rw [if_neg hki]
        simp only [Layer.getFrame]
        exact inv_replaceFirst l.frames idx _ f1 hfind hkey
          (fun f _ => rfl) (fun f _ hkf => by simp [Frame.addShape, hkf])

/-- `clearKeyframe(1)` never deletes frame 1: it clears it in place. -/
theorem clearKeyframe_one (l : Layer) (f1 : Frame)
    (hfind : l.getFrame 1 = some f1) (hkey : f1.isKeyframe = true) :
    (l.clearKeyframe 1).getFrame 1 = some (Frame.clear f1) := by
  unfold Layer.clearKeyframe
  rw [hfind]
  simp only [hkey, if_true, if_pos rfl, Layer.getFrame]
  rw [find?_replaceFirst_self (fun f => f.index = 1) Frame.clear l.frames
    (fun a ha => by simpa [Frame.clear] using ha)]
  unfold Layer.getFrame at hfind
  rw [hfind]
  rfl

/-- C5: on a layer where frame 1 exists as a keyframe, each Layer operation
(`insertKeyframe`, `insertBlankKeyframe`, `clearKeyframe`, `addShapeAtFrame`)
preserves "frame 1 exists and is a keyframe"; and `clearKeyframe(1)` never
removes frame 1 — afterwards `getFrame(1)` still returns the frame, cleared:
with empty shapes and its keyframe flag intact. -/
theorem layer_ops_preserve_frame1 (l : Layer) (st : Store) (g : Nat) (idx addr : Nat)
    (f1 : Frame) (hfind : l.getFrame 1 = some f1) (hkey : f1.isKeyframe = true) :
    Frame1Inv (l.insertKeyframe idx st g).1 ∧
    Frame1Inv (l.insertBlankKeyframe idx g).1 ∧
    Frame1Inv (l.clearKeyframe idx) ∧
    Frame1Inv (l.addShapeAtFrame idx addr st g).1 ∧
    (l.clearKeyframe 1).getFrame 1 = some (Frame.clear f1) ∧
    (Frame.clear f1).shapes = [] ∧
    (Frame.clear f1).isKeyframe = f1.isKeyframe :=
  ⟨inv_insertKeyframe l idx st g ⟨f1, hfind, hkey⟩,
   inv_insertBlankKeyframe l idx g ⟨f1, hfind, hkey⟩,
   inv_clearKeyframe l idx ⟨f1, hfind, hkey⟩,
   inv_addShapeAtFrame l idx addr st g ⟨f1, hfind, hkey⟩,
   clearKeyframe_one l f1 hfind hkey,
   rfl, rfl⟩

/-- Witness for C5: the invariant preservation at a concrete layer and index. -/
theorem layer_ops_preserve_frame1_witness :
    c3Layer.getFrame 1 = some (sampleKeyframe 50 [0]) ∧
    (sampleKeyframe 50 [0]).isKeyframe = true ∧
    (Frame1Inv (c3Layer.insertKeyframe 5 c3Store 100).1 ∧
     Frame1Inv (c3Layer.insertBlankKeyframe 5 100).1 ∧
     Frame1Inv (c3Layer.clearKeyframe 5) ∧
     Frame1Inv (c3Layer.addShapeAtFrame 5 9 c3Store 100).1 ∧
     (c3Layer.clearKeyframe 1).getFrame 1 = some (Frame.clear (sampleKeyframe 50 [0])) ∧
     (Frame.clear (sampleKeyframe 50 [0])).shapes = [] ∧
     (Frame.clear (sampleKeyframe 50 [0])).isKeyframe = (sampleKeyframe 50 [0]).isKeyframe) :=
  ⟨rfl, rfl, layer_ops_preserve_frame1 c3Layer c3Store 100 5 9 (sampleKeyframe 50 [0]) rfl rfl⟩

/-! ## C8 — the bounded history -/

/-- `applyExecs` over an appended list. -/
theorem applyExecs_append (d : σ) (l m : List (Command σ)) :
    applyExecs d (l ++ m) = applyExecs (applyExecs d l) m := by
  simp [applyExecs, List.foldl_append]

/-- State of the manager after executing a whole command list from a clean
redo stack: the undo stack keeps the most recent `maxHistory` commands
(oldest shifted away), the redo stack stays clean, and the document is the
fold of all `execute()` effects. -/
theorem executeAll_spec (K : Nat) (cs : List (Command σ)) :
    ∀ (us : List (Command σ)) (d : σ), us.length ≤ K →
    HistoryManager.executeAll ⟨us, [], K, d⟩ cs =
      ⟨(us ++ cs).drop (us.length + cs.length - K), [], K, applyExecs d cs⟩ := by
  induction cs with
  | nil =>
      intro us d h
      simp [HistoryManager.executeAll, applyExecs, Nat.sub_eq_zero_of_le h]
  | cons c cs ih =>
      intro us d h
      have hstep : HistoryManager.executeAll (⟨us, [], K, d⟩ : HistoryManager σ) (c :: cs)
          = HistoryManager.executeAll
              ⟨if K < (us ++ [c]).length then (us ++ [c]).drop 1 else us ++ [c],
               [], K, c.exec d⟩ cs := by
        simp [HistoryManager.executeAll, HistoryManager.execute]
      rw [hstep]
      by_cases hover : K < us.length + 1
      · have husK : us.length = K := by omega
        rw [if_pos (by simpa using hover)]
        have hlen2 : ((us ++ [c]).drop 1).length = K := by
          simp [husK]
        rw [ih _ (c.exec d) (by omega)]
        have harg : ((us ++ [c]).drop 1 ++ cs) = (us ++ c :: cs).drop 1 := by
          rw [← List.drop_append_of_le_length (by simp : 1 ≤ (us ++ [c]).length),
            List.append_assoc]
          simp
        rw [harg, List.drop_drop, hlen2]
        have harg2 : 1 + (K + cs.length - K) = us.length + (c :: cs).length - K := by
          simp only [List.length_cons, husK]
          omega
        rw [harg2]
        simp [applyExecs]
      · rw [if_neg (by simpa using hover)]
        rw [ih (us ++ [c]) (c.exec d)
          (by simp only [List.length_append, List.length_singleton]; omega)]
        have harg2 : (us ++ [c]).length + cs.length - K = us.length + (c :: cs).length - K := by
          rw [List.length_append, List.length_singleton, List.length_cons]
          omega
        rw [List.append_assoc, harg2]
        simp [applyExecs]

/-- Undoing as many times as there are stacked commands returns the document
to the state before they ran, provided each command's `undo()` inverts its
`execute()`. -/
theorem undoIter_all (l : List (Command σ)) :
    ∀ (rs : List (Command σ)) (K : Nat) (s : σ),
    (∀ c ∈ l, ∀ x, c.undo (c.exec x) = x) →
    (HistoryManager.undoIter ⟨l, rs, K, applyExecs s l⟩ l.length).document = s := by
  induction l using List.reverseRecOn with
  | nil =>
      intro rs K s _
      simp [HistoryManager.undoIter, applyExecs]
  | append_singleton l c ih =>
      intro rs K s h
      have hlen : (l ++ [c]).length = l.length + 1 := by simp
      rw [hlen]
      have hundo : ((⟨l ++ [c], rs, K, applyExecs s (l ++ [c])⟩ : HistoryManager σ).undo).1
          = ⟨l, rs ++ [c], K, applyExecs s l⟩ := by
        simp only [HistoryManager.undo, List.getLast?_concat, List.dropLast_concat,
          applyExecs_append]
        simp [applyExecs, h c (by simp)]
      show ((((⟨l ++ [c], rs, K, applyExecs s (l ++ [c])⟩ : HistoryManager σ).undo).1).undoIter
        l.length).document = s
      rw [hundo]
      exact ih (rs ++ [c]) K s (fun c' hc' => h c' (by simp [hc']))

/-- C8: with max history set to `K` and `K + 5` commands executed, the undo
stack holds exactly the last `K` commands (the oldest 5 discarded); and —
whenever each command's `undo()` inverts its `execute()` — undoing all `K`
available commands lands on the state after the 5th executed command, not the
initial state. -/
theorem history_bound (σ : Type) (K : Nat) (hK : 1 ≤ K) (cs : List (Command σ))
    (hlen : cs.length = K + 5) (d0 : σ) :
    (((HistoryManager.new d0).setMaxHistory K).executeAll cs).undoStack = cs.drop 5 ∧
    (((HistoryManager.new d0).setMaxHistory K).executeAll cs).undoStack.length = K ∧
    ((∀ c ∈ cs, ∀ s : σ, c.undo (c.exec s) = s) →
      ((((HistoryManager.new d0).setMaxHistory K).executeAll cs).undoIter K).document
        = applyExecs d0 (cs.take 5)) := by
  have hempty : shrinkFront K ([] : List (Command σ)) = [] := by
    rw [shrinkFront]
    simp
  have hm0 : (HistoryManager.new d0).setMaxHistory K
      = (⟨[], [], K, d0⟩ : HistoryManager σ) := by
    unfold HistoryManager.new HistoryManager.setMaxHistory
    simp only [Nat.max_eq_right hK, hempty]
  have hrun : ((HistoryManager.new d0).setMaxHistory K).executeAll cs
      = ⟨cs.drop 5, [], K, applyExecs d0 cs⟩ := by
    rw [hm0, executeAll_spec K cs [] d0 (by simp)]
    have : [] ++ cs = cs := rfl
    rw [this]
    have harg : ([] : List (Command σ)).length + cs.length - K = 5 := by
      simp [hlen]
    rw [harg]
  refine ⟨by rw [hrun], by rw [hrun]; simp [hlen], ?_⟩
  intro hinv
  rw [hrun]
  have hsplit : applyExecs d0 cs = applyExecs (applyExecs d0 (cs.take 5)) (cs.drop 5) := by
    rw [← applyExecs_append, List.take_append_drop]
  have hKlen : K = (cs.drop 5).length := by simp [hlen]
  rw [hsplit, hKlen]
  exact undoIter_all (cs.drop 5) [] (cs.drop 5).length (applyExecs d0 (cs.take 5))
    (fun c hc => hinv c (List.mem_of_mem_drop hc))

/-- A command over `List Nat` documents: `execute` appends `i`, `undo` drops
the last element. -/
def pushCommand (i : Nat) : Command (List Nat) :=
  { exec := fun l => l ++ [i], undo := fun l => l.dropLast }

/-- Witness for C8: `K = 1`, six commands pushing 1..6; the undo stack keeps
only the sixth command, and undoing it lands on `[1, 2, 3, 4, 5]` — the state
after the 5th command, not the initial `[]`. -/
theorem history_bound_witness :
    (((HistoryManager.new ([] : List Nat)).setMaxHistory 1).executeAll
        [pushCommand 1, pushCommand 2, pushCommand 3, pushCommand 4, pushCommand 5,
         pushCommand 6]).undoStack
      = [pushCommand 1, pushCommand 2, pushCommand 3, pushCommand 4, pushCommand 5,
         pushCommand 6].drop 5 ∧
    (((HistoryManager.new ([] : List Nat)).setMaxHistory 1).executeAll
        [pushCommand 1, pushCommand 2, pushCommand 3, pushCommand 4, pushCommand 5,
         pushCommand 6]).undoStack.length = 1 ∧
    ((((HistoryManager.new ([] : List Nat)).setMaxHistory 1).executeAll
        [pushCommand 1, pushCommand 2, pushCommand 3, pushCommand 4, pushCommand 5,
         pushCommand 6]).undoIter 1).document = [1, 2, 3, 4, 5] := by
  have h := history_bound (List Nat) 1 (by omega)
    [pushCommand 1, pushCommand 2, pushCommand 3, pushCommand 4, pushCommand 5,
     pushCommand 6] rfl []
  refine ⟨h.1, h.2.1, ?_⟩
  have hinv : ∀ c ∈ [pushCommand 1, pushCommand 2, pushCommand 3, pushCommand 4,
      pushCommand 5, pushCommand 6], ∀ s : List Nat, c.undo (c.exec s) = s := by
    intro c hc s
    fin_cases hc <;> exact List.dropLast_concat
  rw [h.2.2 hinv]
  rfl
